import Mathlib

/-!
Shallow embedding of `pyOCD/pyDAPAccess/interface/pyusb_backend.py` (class
`PyUSB`): a USB HID transport for CMSIS-DAP debug probes, with blocking
write/read, a background receive pump gated by a semaphore, and a bus
enumerator.  Definitions mirror the Python source; theorems settle the
specification claims about it.
-/

namespace PyUSBModel

/-- A USB endpoint descriptor, as seen through pyusb. -/
structure Endpoint where
  bEndpointAddress : Nat
  wMaxPacketSize : Nat
  deriving DecidableEq, Repr

/-- A USB interface of the active configuration, as seen through pyusb. -/
structure USBInterface where
  bInterfaceClass : Nat
  bInterfaceNumber : Int
  endpoints : List Endpoint
  deriving DecidableEq, Repr

/-- A USB device on the bus, as seen through pyusb (`usb.core.find`). -/
structure Device where
  serial_number : String
  product : String
  manufacturer : String
  idVendor : Nat
  idProduct : Nat
  config : List USBInterface
  deriving DecidableEq, Repr

/-- The Python exceptions the backend can raise: `AssertionError` from the
lifecycle guards, and `DAPAccessIntf.Error()` (raised with no arguments, so it
carries no information about its cause). -/
inductive PyErr where
  | assertionError
  | dapError
  deriving DecidableEq, Repr

/-- Externally visible side effects of the transport operations, in program
order: semaphore release, endpoint write, control transfer, resource disposal,
thread join. -/
inductive Effect where
  | semRelease
  | epWrite (addr : Nat) (data : List Nat)
  | ctrlTransfer (bmRequestType bRequest wValue : Nat) (wIndex : Option Int)
      (data : List Nat)
  | dispose (serial : String)
  | threadJoin
  deriving DecidableEq, Repr

/-- The payload an effect transmits to the device, when it transmits one. -/
def Effect.payload : Effect → Option (List Nat)
  | .epWrite _ d => some d
  | .ctrlTransfer _ _ _ _ d => some d
  | _ => none

/-- The attribute state of a `PyUSB` instance.  Attributes that `__init__`
does not create (`intf_number`, `vid`, `pid`, `product_name`, `vendor_name`)
are `Option`-typed with `none` meaning the attribute is absent until `open`
assigns it. -/
structure PyUSBSt where
  ep_out : Option Endpoint
  ep_in : Option Endpoint
  dev : Option Device
  closed : Bool
  rcv_data : List (List Nat)
  _open : Bool
  serial_number : String
  intf_number : Option Int
  vid : Option Nat
  pid : Option Nat
  product_name : Option String
  vendor_name : Option String
  packet_count : Option Nat
  deriving DecidableEq, Repr

/-- `PyUSB.__init__(serial_number)`. -/
def PyUSB_init (serial : String) : PyUSBSt :=
  { ep_out := none
    ep_in := none
    dev := none
    closed := false
    rcv_data := []
    _open := false
    serial_number := serial
    intf_number := none
    vid := none
    pid := none
    product_name := none
    vendor_name := none
    packet_count := none }

/-- Python `str.find` on character lists: index of the first occurrence of
`needle`, or `-1` when it does not occur. -/
def pyFind (needle : List Char) : List Char → Int
  | [] => if needle.isPrefixOf [] then 0 else -1
  | c :: t =>
    if needle.isPrefixOf (c :: t) then 0
    else
      let r := pyFind needle t
      if r < 0 then -1 else r + 1

/-- The product-string marker the enumerator filters on. -/
def marker : List Char := "CMSIS-DAP".toList

/-- The endpoint scan of `open`: one pass over the interface's endpoints,
assigning each endpoint with the direction bit `0x80` set to `ep_in` and each
other endpoint to `ep_out` (so the last of each kind wins). -/
def scanEndpoints (eps : List Endpoint) : Option Endpoint × Option Endpoint :=
  eps.foldl
    (fun (p : Option Endpoint × Option Endpoint) ep =>
      if ep.bEndpointAddress &&& 0x80 ≠ 0 then (some ep, p.2)
      else (p.1, some ep))
    (none, none)

/-- `PyUSB.open`: find the device matching the stored serial number, locate
the first HID-class (`0x03`) interface, pick the last IN and last OUT
endpoint of that interface, record identity attributes, and mark the
instance open.  Each failure raises `DAPAccessIntf.Error()`; the initial
`assert self._open is False` raises `AssertionError` on a second open. -/
def open' (bus : List Device) (st : PyUSBSt) : Except PyErr PyUSBSt :=
  if st._open then .error .assertionError
  else
    match bus.find? (fun d => d.serial_number == st.serial_number) with
    | none => .error .dapError
    | some dev =>
      match dev.config.find? (fun i => i.bInterfaceClass == 0x03) with
      | none => .error .dapError
      | some intf =>
        let eps := scanEndpoints intf.endpoints
        match eps.1 with
        | none => .error .dapError
        | some epi =>
          .ok { st with
                  intf_number := some intf.bInterfaceNumber
                  ep_in := some epi
                  ep_out := eps.2
                  vid := some dev.idVendor
                  pid := some dev.idProduct
                  product_name := some dev.product
                  vendor_name := some dev.manufacturer
                  dev := some dev
                  _open := true }

/-- The report size `write` pads to: the OUT endpoint's max packet size when
an OUT endpoint exists, else 64. -/
def report_size (st : PyUSBSt) : Nat :=
  match st.ep_out with
  | some ep => ep.wMaxPacketSize
  | none => 64

/-- `PyUSB.write(data)`: pad `data` in place with zero bytes up to the report
size, release the read semaphore, then either write the padded list to the
OUT endpoint or fall back to a `Set_Report` control transfer.  Returns the
mutated list together with the ordered effect trace. -/
def write (st : PyUSBSt) (data : List Nat) : List Nat × List Effect :=
  let d := data ++ List.replicate (report_size st - data.length) 0
  match st.ep_out with
  | none =>
    (d, [Effect.semRelease,
         Effect.ctrlTransfer 0x21 0x09 0x200 st.intf_number d])
  | some ep =>
    (d, [Effect.semRelease, Effect.epWrite ep.bEndpointAddress d])

/-- One poll of `PyUSB.read`'s busy-wait loop: `none` while `rcv_data` is
empty (the loop spins), otherwise `rcv_data.pop(0)`. -/
def read' (st : PyUSBSt) : Option (List Nat × PyUSBSt) :=
  match st.rcv_data with
  | [] => none
  | p :: rest => some (p, { st with rcv_data := rest })

/-- `PyUSB.read`'s busy-wait run for `fuel` polls of an otherwise quiescent
state: the spin body is `pass`, so the state never changes between polls. -/
def read_spin (fuel : Nat) (st : PyUSBSt) : Option (List Nat × PyUSBSt) :=
  match fuel with
  | 0 => none
  | n + 1 =>
    match read' st with
    | some r => some r
    | none => read_spin n st

/-- `PyUSB.close`: `assert self._open is True`, set the closed flag, release
the read semaphore, join the receive-pump thread, dispose the USB resources.
The `_open` flag is left unchanged. -/
def close' (st : PyUSBSt) : Except PyErr (PyUSBSt × List Effect) :=
  if st._open = true then
    .ok ({ st with closed := true },
         [Effect.semRelease, Effect.threadJoin, Effect.dispose st.serial_number])
  else .error .assertionError

/-- `PyUSB.getAllConnectedInterface`: scan the bus in enumeration order; a
device whose product string lacks `"CMSIS-DAP"` is disposed and skipped; a
candidate yields `PyUSB(serial_number)` and is disposed as well. -/
def getAllConnectedInterface : List Device → List PyUSBSt × List Effect
  | [] => ([], [])
  | d :: rest =>
    if pyFind marker d.product.toList < 0 then
      ((getAllConnectedInterface rest).1,
       Effect.dispose d.serial_number :: (getAllConnectedInterface rest).2)
    else
      (PyUSB_init d.serial_number :: (getAllConnectedInterface rest).1,
       Effect.dispose d.serial_number :: (getAllConnectedInterface rest).2)

/-! ## Concurrency model of the receive pump

`rx_task` runs `while not self.closed: sem.acquire(); if not self.closed:
rcv_data.append(ep_in.read(...))` concurrently with the caller's `write`
(which releases the semaphore once) and `close` (which sets the closed flag
and then releases the semaphore unconditionally).  We model the interleaving
as a labelled transition system over the shared state. -/

/-- Program counter of the `rx_task` loop. -/
inductive PumpLoc where
  | checkLoop
  | waitSem
  | checkClosed
  | done
  deriving DecidableEq, Repr

/-- Shared state between the caller's thread and the receive pump: the closed
flag, the semaphore count, the pump's program counter, the packet queue, and
history counters (semaphore releases by `write`, semaphore acquires, hardware
reads issued). -/
structure Sys where
  closed : Bool
  sem : Nat
  loc : PumpLoc
  queue : List (List Nat)
  writeSignals : Nat
  acquires : Nat
  hwReads : Nat
  deriving DecidableEq, Repr

/-- The state right after `open` spawns the pump: semaphore at 0, pump at the
loop head, nothing read. -/
def Sys.init : Sys :=
  { closed := false, sem := 0, loc := .checkLoop, queue := []
    writeSignals := 0, acquires := 0, hwReads := 0 }

/-- Interleaved small-step semantics: the pump's four steps, `write`'s
semaphore release, and `close`'s set-flag-then-release (atomic here because
the pump re-checks the flag after every acquire). -/
inductive Step : Sys → Sys → Prop where
  | pumpExit (s : Sys) (hl : s.loc = .checkLoop) (hc : s.closed = true) :
      Step s { s with loc := .done }
  | pumpEnter (s : Sys) (hl : s.loc = .checkLoop) (hc : s.closed = false) :
      Step s { s with loc := .waitSem }
  | pumpAcquire (s : Sys) (k : Nat) (hl : s.loc = .waitSem) (hs : s.sem = k + 1) :
      Step s { s with sem := k, loc := .checkClosed, acquires := s.acquires + 1 }
  | pumpRead (s : Sys) (pkt : List Nat) (hl : s.loc = .checkClosed)
      (hc : s.closed = false) :
      Step s { s with loc := .checkLoop, queue := s.queue ++ [pkt]
                      hwReads := s.hwReads + 1 }
  | pumpSkip (s : Sys) (hl : s.loc = .checkClosed) (hc : s.closed = true) :
      Step s { s with loc := .checkLoop }
  | writerRelease (s : Sys) :
      Step s { s with sem := s.sem + 1, writeSignals := s.writeSignals + 1 }
  | closerClose (s : Sys) (hc : s.closed = false) :
      Step s { s with closed := true, sem := s.sem + 1 }

/-- States reachable from `Sys.init` under the interleaved semantics. -/
inductive SysReachable : Sys → Prop where
  | init : SysReachable Sys.init
  | step {s s' : Sys} : SysReachable s → Step s s' → SysReachable s'

/-- Inductive invariant of the pump system: semaphore accounting, at most one
read per acquire, and acquire/read counts bounded by the writer's releases. -/
def SysInv (s : Sys) : Prop :=
  (s.closed = false → s.sem + s.acquires = s.writeSignals)
  ∧ (s.closed = true → s.sem + s.acquires = s.writeSignals + 1)
  ∧ (s.loc = .checkClosed → s.hwReads + 1 ≤ s.acquires)
  ∧ s.hwReads ≤ s.acquires
  ∧ (s.closed = false → s.acquires ≤ s.writeSignals)
  ∧ (s.loc = .waitSem → s.acquires ≤ s.writeSignals)
  ∧ s.hwReads ≤ s.writeSignals

theorem sysInv_init : SysInv Sys.init := by
  simp [SysInv, Sys.init]

theorem sysInv_step {s s' : Sys} (hs : SysInv s) (h : Step s s') : SysInv s' := by
  obtain ⟨h1, h2, h3, h4, h5, h6, h7⟩ := hs
  cases h with
  | pumpExit hl hc =>
    refine ⟨h1, h2, ?_, h4, h5, ?_, h7⟩
    · intro hx; simp at hx
    · intro hx; simp at hx
  | pumpEnter hl hc =>
    refine ⟨h1, h2, ?_, h4, h5, fun _ => h5 hc, h7⟩
    intro hx; simp at hx
  | pumpAcquire k hl hs' =>
    have hW : s.acquires ≤ s.writeSignals := h6 hl
    refine ⟨?_, ?_, ?_, ?_, ?_, ?_, h7⟩
    · intro hc
      have := h1 hc
      dsimp only
      omega
    · intro hc
      have := h2 hc
      dsimp only
      omega
    · intro _
      dsimp only
      omega
    · dsimp only
      omega
    · intro hc
      have := h1 hc
      dsimp only
      omega
    · intro hx; simp at hx
  | pumpRead pkt hl hc =>
    have hR : s.hwReads + 1 ≤ s.acquires := h3 hl
    have hW : s.acquires ≤ s.writeSignals := h5 hc
    refine ⟨h1, h2, ?_, ?_, h5, ?_, ?_⟩
    · intro hx; simp at hx
    · dsimp only
      omega
    · intro hx; simp at hx
    · dsimp only
      omega
  | pumpSkip hl hc =>
    refine ⟨h1, h2, ?_, h4, h5, ?_, h7⟩
    · intro hx; simp at hx
    · intro hx; simp at hx
  | writerRelease =>
    refine ⟨?_, ?_, h3, h4, ?_, ?_, ?_⟩
    · intro hc
      have := h1 hc
      dsimp only
      omega
    · intro hc
      have := h2 hc
      dsimp only
      omega
    · intro hc
      have := h5 hc
      dsimp only
      omega
    · intro hx
      have := h6 hx
      dsimp only
      omega
    · dsimp only
      omega
  | closerClose hc =>
    refine ⟨?_, ?_, h3, h4, ?_, ?_, h7⟩
    · intro hx; simp at hx
    · intro _
      have := h1 hc
      dsimp only
      omega
    · intro hx; simp at hx
    · intro hx
      have := h6 hx
      dsimp only
      omega

theorem sysInv_reachable {s : Sys} (h : SysReachable s) : SysInv s := by
  induction h with
  | init => exact sysInv_init
  | step _ hstep ih => exact sysInv_step ih hstep

/-- Deterministic execution of the pump alone (used after `close`, when the
caller's thread only joins): one loop step of `rx_task`. -/
def pumpStep (s : Sys) : Sys :=
  match s.loc with
  | .checkLoop => if s.closed then { s with loc := .done } else { s with loc := .waitSem }
  | .waitSem =>
    match s.sem with
    | 0 => s
    | k + 1 => { s with sem := k, loc := .checkClosed, acquires := s.acquires + 1 }
  | .checkClosed =>
    if s.closed then { s with loc := .checkLoop }
    else { s with loc := .checkLoop, queue := s.queue ++ [[]], hwReads := s.hwReads + 1 }
  | .done => s

/-- Once the closed flag is set, the pump reaches `done` in at most three of
its own steps, without issuing another hardware read and without touching the
queue. -/
theorem pump_close_terminates (s : Sys) (hInv : SysInv s) (hc : s.closed = true) :
    (pumpStep (pumpStep (pumpStep s))).loc = .done
    ∧ (pumpStep (pumpStep (pumpStep s))).hwReads = s.hwReads
    ∧ (pumpStep (pumpStep (pumpStep s))).queue = s.queue := by
  obtain ⟨h1, h2, h3, h4, h5, h6, h7⟩ := hInv
  cases hloc : s.loc with
  | checkLoop =>
    simp [pumpStep, hloc, hc]
  | waitSem =>
    have hsem : 1 ≤ s.sem := by
      have ha := h2 hc
      have hb := h6 hloc
      omega
    cases hsemv : s.sem with
    | zero => omega
    | succ k => simp [pumpStep, hloc, hc, hsemv]
  | checkClosed =>
    simp [pumpStep, hloc, hc]
  | done =>
    simp [pumpStep, hloc, hc]

/-! ## Helper lemmas about the object-level operations -/

/-- The padded list `write` builds, independent of the transfer path. -/
theorem write_fst_eq (st : PyUSBSt) (data : List Nat) :
    (write st data).1 = data ++ List.replicate (report_size st - data.length) 0 := by
  cases hep : st.ep_out <;> simp [write, hep]

/-- Boolean list-prefix test, characterised. -/
theorem isPrefixOf_eq_true (n : List Char) : ∀ h : List Char,
    n.isPrefixOf h = true ↔ ∃ t, n ++ t = h := by
  induction n with
  | nil => intro h; simp [List.isPrefixOf]
  | cons a as ih =>
    intro h
    cases h with
    | nil => simp [List.isPrefixOf]
    | cons b bs =>
      simp only [List.isPrefixOf, Bool.and_eq_true, beq_iff_eq, ih, List.cons_append,
        List.cons.injEq]
      constructor
      · rintro ⟨rfl, t, rfl⟩
        exact ⟨t, rfl, rfl⟩
      · rintro ⟨t, rfl, rfl⟩
        exact ⟨rfl, t, rfl⟩

/-- Python's `str.find` is non-negative exactly when the needle occurs as a
contiguous substring. -/
theorem pyFind_nonneg_iff (n : List Char) : ∀ h : List Char,
    0 ≤ pyFind n h ↔ ∃ pre post, pre ++ n ++ post = h := by
  intro h
  induction h with
  | nil =>
    rw [pyFind]
    by_cases hn : n.isPrefixOf ([] : List Char) = true
    · obtain ⟨t, ht⟩ := (isPrefixOf_eq_true n []).1 hn
      obtain ⟨hn0, ht0⟩ := List.append_eq_nil.1 ht
      subst hn0
      rw [if_pos hn]
      constructor
      · intro _
        exact ⟨[], [], rfl⟩
      · intro _
        omega
    · rw [if_neg hn]
      constructor
      · intro h0
        omega
      · rintro ⟨pre, post, hpp⟩
        obtain ⟨hpre, hpost⟩ := List.append_eq_nil.1 hpp
        obtain ⟨hpre0, hn0⟩ := List.append_eq_nil.1 hpre
        subst hn0
        simp [List.isPrefixOf] at hn
  | cons c t ih =>
    rw [pyFind]
    by_cases hn : n.isPrefixOf (c :: t) = true
    · rw [if_pos hn]
      constructor
      · intro _
        obtain ⟨t', ht'⟩ := (isPrefixOf_eq_true n (c :: t)).1 hn
        exact ⟨[], t', by simpa using ht'⟩
      · intro _
        omega
    · rw [if_neg hn]
      constructor
      · intro h0
        have hr : 0 ≤ pyFind n t := by
          by_cases hlt : pyFind n t < 0
          · rw [if_pos hlt] at h0
            omega
          · omega
        obtain ⟨pre, post, hpp⟩ := ih.1 hr
        exact ⟨c :: pre, post, by simp [hpp]⟩
      · rintro ⟨pre, post, hpp⟩
        cases pre with
        | nil =>
          have : n.isPrefixOf (c :: t) = true :=
            (isPrefixOf_eq_true n (c :: t)).2 ⟨post, by simpa using hpp⟩
          exact absurd this hn
        | cons p ps =>
          simp only [List.cons_append, List.cons.injEq] at hpp
          obtain ⟨-, ht⟩ := hpp
          have hr : 0 ≤ pyFind n t := ih.2 ⟨ps, post, ht⟩
          have hnlt : ¬ pyFind n t < 0 := by omega
          rw [if_neg hnlt]
          omega

/-- The boards `getAllConnectedInterface` returns: the bus devices whose
product string makes `find("CMSIS-DAP")` non-negative, in bus order, each
turned into a fresh `PyUSB` instance from its serial number alone. -/
theorem getAll_fst (bus : List Device) :
    (getAllConnectedInterface bus).1
      = (bus.filter (fun d => !decide (pyFind marker d.product.toList < 0))).map
          (fun d => PyUSB_init d.serial_number) := by
  induction bus with
  | nil => rfl
  | cons d rest ih =>
    simp only [getAllConnectedInterface, List.filter_cons]
    by_cases hd : pyFind marker d.product.toList < 0
    · rw [if_pos hd, if_neg (by simpa using hd)]
      exact ih
    · rw [if_neg hd, if_pos (by simpa using hd), List.map_cons]
      dsimp only
      rw [ih]

/-- `getAllConnectedInterface` disposes every enumerated device, candidate or
not, in bus order. -/
theorem getAll_snd (bus : List Device) :
    (getAllConnectedInterface bus).2
      = bus.map (fun d => Effect.dispose d.serial_number) := by
  induction bus with
  | nil => rfl
  | cons d rest ih =>
    simp only [getAllConnectedInterface, List.map_cons]
    by_cases hd : pyFind marker d.product.toList < 0
    · rw [if_pos hd]
      dsimp only
      rw [ih]
    · rw [if_neg hd]
      dsimp only
      rw [ih]

/-! ## Concrete instances used by witnesses and counterexamples -/

def epIn81 : Endpoint := { bEndpointAddress := 0x81, wMaxPacketSize := 64 }

def epOut01 : Endpoint := { bEndpointAddress := 0x01, wMaxPacketSize := 64 }

/-- An opened transport on a device with only an IN endpoint. -/
def stNoOut : PyUSBSt :=
  { PyUSB_init "SN1" with _open := true, ep_in := some epIn81, intf_number := some 0 }

/-- An opened transport on a device with both IN and OUT endpoints. -/
def stWithOut : PyUSBSt := { stNoOut with ep_out := some epOut01 }

/-! ## Claim theorems -/

/-- C1: for every payload no longer than the report size, `write` pads it
with zero bytes to exactly report-size bytes, the transmitted frame is the
original bytes followed by `report_size - len(data)` zero bytes, and the
report size is the OUT endpoint's max packet size when an OUT endpoint
exists and 64 bytes otherwise. -/
theorem write_pads_to_report_size (st : PyUSBSt) (data : List Nat)
    (h : data.length ≤ report_size st) :
    ((write st data).1).length = report_size st
    ∧ (write st data).1 = data ++ List.replicate (report_size st - data.length) 0
    ∧ ((write st data).2).filterMap Effect.payload
        = [data ++ List.replicate (report_size st - data.length) 0]
    ∧ (∀ ep, st.ep_out = some ep → report_size st = ep.wMaxPacketSize)
    ∧ (st.ep_out = none → report_size st = 64) := by
  refine ⟨?_, write_fst_eq st data, ?_, ?_, ?_⟩
  · rw [write_fst_eq]
    simp only [List.length_append, List.length_replicate]
    omega
  · cases hep : st.ep_out <;> simp [write, hep, Effect.payload]
  · intro ep hep
    simp [report_size, hep]
  · intro hep
    simp [report_size, hep]

theorem write_pads_to_report_size_witness :
    ([0, 1] : List Nat).length ≤ report_size stWithOut
    ∧ (write stWithOut [0, 1]).1
        = [0, 1] ++ List.replicate (report_size stWithOut - 2) 0 :=
  ⟨by decide, (write_pads_to_report_size stWithOut [0, 1] (by decide)).2.1⟩

/-- C2: `write` selects its transfer path by the presence of an OUT
endpoint: with an OUT endpoint the padded payload goes to that endpoint;
without one it issues exactly one control transfer with
`bmRequestType = 0x21`, `bRequest = 0x09`, `wValue = 0x0200`,
`wIndex = self.intf_number`, which `open` set to the claimed (first
HID-class) interface's number. -/
theorem write_path_selection (st : PyUSBSt) (data : List Nat) :
    (∀ ep, st.ep_out = some ep →
       (write st data).2
         = [Effect.semRelease,
            Effect.epWrite ep.bEndpointAddress
              (data ++ List.replicate (report_size st - data.length) 0)])
    ∧ (st.ep_out = none →
       (write st data).2
         = [Effect.semRelease,
            Effect.ctrlTransfer 0x21 0x09 0x200 st.intf_number
              (data ++ List.replicate (report_size st - data.length) 0)])
    ∧ (∀ bus st' d i, open' bus st = Except.ok st' →
        bus.find? (fun d => d.serial_number == st.serial_number) = some d →
        d.config.find? (fun i => i.bInterfaceClass == 0x03) = some i →
        st'.intf_number = some i.bInterfaceNumber) := by
  refine ⟨?_, ?_, ?_⟩
  · intro ep hep
    simp [write, hep]
  · intro hep
    simp [write, hep]
  · intro bus st' d i hok hd hi
    cases ho : st._open with
    | true => simp [open', ho] at hok
    | false =>
      simp only [open', ho, hd, hi, Bool.false_eq_true, if_false] at hok
      cases hin : (scanEndpoints i.endpoints).1 with
      | none => simp [hin] at hok
      | some epi =>
        simp only [hin] at hok
        rw [Except.ok.injEq] at hok
        subst hok
        rfl

theorem write_path_selection_witness :
    stNoOut.ep_out = none
    ∧ (write stNoOut [2]).2
        = [Effect.semRelease,
           Effect.ctrlTransfer 0x21 0x09 0x200 (some 0)
             ([2] ++ List.replicate (report_size stNoOut - 1) 0)] :=
  ⟨rfl, (write_path_selection stNoOut [2]).2.1 rfl⟩

/-- C10: `write(data)` mutates the caller's list in place: afterwards the
list has length exactly `report_size`, its first `len(data)` elements are the
original bytes, and the appended suffix is all zeros. -/
theorem write_mutates_in_place (st : PyUSBSt) (data : List Nat)
    (h : data.length ≤ report_size st) :
    ((write st data).1).length = report_size st
    ∧ ((write st data).1).take data.length = data
    ∧ ((write st data).1).drop data.length
        = List.replicate (report_size st - data.length) 0 := by
  rw [write_fst_eq]
  refine ⟨?_, ?_, ?_⟩
  · simp only [List.length_append, List.length_replicate]
    omega
  · exact List.take_left data _
  · exact List.drop_left data _

theorem write_mutates_in_place_witness :
    ([3] : List Nat).length ≤ report_size stWithOut
    ∧ ((write stWithOut [3]).1).take 1 = [3] :=
  ⟨by decide, (write_mutates_in_place stWithOut [3] (by decide)).2.1⟩

/-- An opened transport (no OUT endpoint) with two queued packets. -/
def stQueue : PyUSBSt := { stNoOut with rcv_data := [[1], [2]] }

/-- An opened transport after `close` ran: closed flag set, queue empty. -/
def stClosedEmpty : PyUSBSt := { stNoOut with closed := true }

/-- The pump system right after `close` ran with no write pending. -/
def sysAfterClose : Sys :=
  { closed := true, sem := 1, loc := .checkLoop, queue := []
    writeSignals := 0, acquires := 0, hwReads := 0 }

theorem sysAfterClose_reachable : SysReachable sysAfterClose :=
  SysReachable.step SysReachable.init (Step.closerClose Sys.init rfl)

/-- C4: `read` blocks (spins) while the Packet Queue is empty, and on a
non-empty queue pops and returns the oldest (head) packet, leaving the
remaining packets in insertion order; two consecutive reads return the two
oldest packets in order. -/
theorem read_fifo (st : PyUSBSt) :
    (st.rcv_data = [] → read' st = none)
    ∧ (∀ p rest, st.rcv_data = p :: rest →
        read' st = some (p, { st with rcv_data := rest }))
    ∧ (∀ p q rest, st.rcv_data = p :: q :: rest →
        read' st = some (p, { st with rcv_data := q :: rest })
        ∧ read' { st with rcv_data := q :: rest }
            = some (q, { st with rcv_data := rest })) := by
  refine ⟨?_, ?_, ?_⟩
  · intro h
    simp [read', h]
  · intro p rest h
    simp [read', h]
  · intro p q rest h
    exact ⟨by simp [read', h], rfl⟩

theorem read_fifo_witness :
    stQueue.rcv_data = [[1], [2]]
    ∧ read' stQueue = some ([1], { stQueue with rcv_data := [[2]] }) :=
  ⟨rfl, ((read_fifo stQueue).2.2 [1] [2] [] rfl).1⟩

/-- C5 counterexample: on a closed transport with an empty Packet Queue,
`read` does not fail — it blocks: every poll of its busy-wait loop returns
nothing (here 100 polls of the unchanged state), and no error of any kind is
raised; `write` likewise performs no closed-check and still issues its
transfer. -/
theorem read_write_after_close_cex :
    read' stClosedEmpty = none
    ∧ read_spin 100 stClosedEmpty = none
    ∧ (write stClosedEmpty [1]).2
        = [Effect.semRelease,
           Effect.ctrlTransfer 0x21 0x09 0x200 (some 0)
             ([1] ++ List.replicate 63 0)] :=
  ⟨rfl, rfl, rfl⟩

/-- C5 amended: after `close`, neither `write` nor `read` fails fast —
`read` on an empty queue busy-waits indefinitely (no poll ever returns, no
error is raised), and `write` is entirely insensitive to the closed flag,
proceeding to pad, signal and issue the transfer. -/
theorem closed_no_fail_fast (st : PyUSBSt) (n : Nat) :
    (st.rcv_data = [] → read' st = none ∧ read_spin n st = none)
    ∧ write { st with closed := true } = write { st with closed := false } := by
  constructor
  · intro h
    refine ⟨by simp [read', h], ?_⟩
    induction n with
    | zero => rfl
    | succ m ih => simp [read_spin, read', h, ih]
  · cases st
    rfl

theorem closed_no_fail_fast_witness :
    stClosedEmpty.rcv_data = [] ∧ read_spin 5 stClosedEmpty = none :=
  ⟨rfl, ((closed_no_fail_fast stClosedEmpty 5).1 rfl).2⟩

/-- C3: each `write` releases the expected-read semaphore exactly once,
before issuing the transfer (its effect trace is the release followed by the
one transfer); in every reachable interleaving the pump issues at most one
hardware read per acquired signal and never more reads than write-releases;
`close` sets the closed flag and releases the semaphore unconditionally; and
from any reachable closed state the pump reaches `done` within three of its
own steps without a further hardware read. -/
theorem write_signal_pump_discipline :
    (∀ (st : PyUSBSt) (data : List Nat), ∃ e,
        (write st data).2 = [Effect.semRelease, e]
        ∧ Effect.payload e = some (write st data).1)
    ∧ (∀ s : Sys, SysReachable s →
        s.hwReads ≤ s.acquires ∧ s.hwReads ≤ s.writeSignals)
    ∧ (∀ st : PyUSBSt, st._open = true →
        close' st = Except.ok ({ st with closed := true },
          [Effect.semRelease, Effect.threadJoin, Effect.dispose st.serial_number]))
    ∧ (∀ s : Sys, SysReachable s → s.closed = true →
        (pumpStep (pumpStep (pumpStep s))).loc = PumpLoc.done
        ∧ (pumpStep (pumpStep (pumpStep s))).hwReads = s.hwReads) := by
  refine ⟨?_, ?_, ?_, ?_⟩
  · intro st data
    cases hep : st.ep_out with
    | none =>
      refine ⟨Effect.ctrlTransfer 0x21 0x09 0x200 st.intf_number
        (data ++ List.replicate (report_size st - data.length) 0), ?_, ?_⟩
      · simp [write, hep]
      · simp [write, hep, Effect.payload]
    | some ep =>
      refine ⟨Effect.epWrite ep.bEndpointAddress
        (data ++ List.replicate (report_size st - data.length) 0), ?_, ?_⟩
      · simp [write, hep]
      · simp [write, hep, Effect.payload]
  · intro s hs
    obtain ⟨-, -, -, h4, -, -, h7⟩ := sysInv_reachable hs
    exact ⟨h4, h7⟩
  · intro st ho
    simp [close', ho]
  · intro s hs hc
    obtain ⟨hd, hr, -⟩ := pump_close_terminates s (sysInv_reachable hs) hc
    exact ⟨hd, hr⟩

theorem write_signal_pump_discipline_witness :
    sysAfterClose.closed = true
    ∧ (pumpStep (pumpStep (pumpStep sysAfterClose))).loc = PumpLoc.done :=
  ⟨rfl,
   (write_signal_pump_discipline.2.2.2 sysAfterClose sysAfterClose_reachable rfl).1⟩

/-- A device whose product string carries the marker but whose only
interface is not HID-class. -/
def devNoHID : Device :=
  { serial_number := "X", product := "CMSIS-DAP probe", manufacturer := "v"
    idVendor := 0x0D28, idProduct := 0x0204
    config := [{ bInterfaceClass := 0xFF, bInterfaceNumber := 0, endpoints := [] }] }

/-- A device whose HID interface exposes only an OUT endpoint (no IN). -/
def devNoIn : Device :=
  { serial_number := "X", product := "CMSIS-DAP probe", manufacturer := "v"
    idVendor := 0x0D28, idProduct := 0x0204
    config := [{ bInterfaceClass := 0x03, bInterfaceNumber := 0
                 endpoints := [{ bEndpointAddress := 0x01, wMaxPacketSize := 64 }] }] }

def stX : PyUSBSt := PyUSB_init "X"

/-- C6 counterexample: the three `open` failure causes — no matching device,
no HID-class interface, no IN endpoint — all raise the very same
`DAPAccessIntf.Error()` value, so a caller cannot tell the causes apart from
the raised error. -/
theorem open_errors_indistinct_cex :
    open' [] stX = Except.error PyErr.dapError
    ∧ open' [devNoHID] stX = Except.error PyErr.dapError
    ∧ open' [devNoIn] stX = Except.error PyErr.dapError :=
  ⟨rfl, rfl, rfl⟩

/-- C6 amended: `open` fails in each of the three situations (no device with
the stored serial number, no class-3 interface, no IN endpoint), but always
by raising the same undifferentiated `DAPAccessIntf.Error`; the failure
causes are not distinguishable from the raised error. -/
theorem open_error_uniform (bus : List Device) (st : PyUSBSt)
    (ho : st._open = false) :
    (bus.find? (fun d => d.serial_number == st.serial_number) = none →
        open' bus st = Except.error PyErr.dapError)
    ∧ (∀ d, bus.find? (fun d => d.serial_number == st.serial_number) = some d →
        d.config.find? (fun i => i.bInterfaceClass == 0x03) = none →
        open' bus st = Except.error PyErr.dapError)
    ∧ (∀ d i, bus.find? (fun d => d.serial_number == st.serial_number) = some d →
        d.config.find? (fun i => i.bInterfaceClass == 0x03) = some i →
        (scanEndpoints i.endpoints).1 = none →
        open' bus st = Except.error PyErr.dapError) := by
  refine ⟨?_, ?_, ?_⟩
  · intro hf
    simp [open', ho, hf]
  · intro d hf hi
    simp [open', ho, hf, hi]
  · intro d i hf hi hin
    simp [open', ho, hf, hi, hin]

theorem open_error_uniform_witness :
    stX._open = false ∧ open' [] stX = Except.error PyErr.dapError :=
  ⟨rfl, (open_error_uniform [] stX rfl).1 rfl⟩

/-- A candidate device (product string contains the marker). -/
def devMatch : Device :=
  { serial_number := "sn1", product := "PROBE CMSIS-DAP v1", manufacturer := "ACME"
    idVendor := 0x0D28, idProduct := 0x0204, config := [] }

/-- A non-candidate device (product string lacks the marker). -/
def devOther : Device :=
  { serial_number := "sn2", product := "Mouse", manufacturer := "ACME"
    idVendor := 1, idProduct := 2, config := [] }

/-- C7: `getAllConnectedInterface` returns boards exactly for the devices
whose product string contains `"CMSIS-DAP"`, in bus-enumeration order with
no sorting, and disposes the USB resources of every enumerated device,
candidate or not. -/
theorem getAllConnectedInterface_spec (bus : List Device) :
    (getAllConnectedInterface bus).1
      = (bus.filter (fun d => !decide (pyFind marker d.product.toList < 0))).map
          (fun d => PyUSB_init d.serial_number)
    ∧ (getAllConnectedInterface bus).2
      = bus.map (fun d => Effect.dispose d.serial_number)
    ∧ (∀ b ∈ (getAllConnectedInterface bus).1, ∃ d ∈ bus,
        b = PyUSB_init d.serial_number
        ∧ ∃ pre post, pre ++ marker ++ post = d.product.toList) := by
  refine ⟨getAll_fst bus, getAll_snd bus, ?_⟩
  intro b hb
  rw [getAll_fst bus] at hb
  obtain ⟨d, hd, rfl⟩ := List.mem_map.1 hb
  obtain ⟨hdbus, hdec⟩ := List.mem_filter.1 hd
  refine ⟨d, hdbus, rfl, ?_⟩
  have hge : 0 ≤ pyFind marker d.product.toList := by
    by_cases hlt : pyFind marker d.product.toList < 0
    · simp [hlt] at hdec
      exact hdec
    · omega
  exact (pyFind_nonneg_iff marker d.product.toList).1 hge

theorem getAllConnectedInterface_spec_witness :
    PyUSB_init "sn1" ∈ (getAllConnectedInterface [devMatch, devOther]).1
    ∧ ∃ d ∈ [devMatch, devOther],
        PyUSB_init "sn1" = PyUSB_init d.serial_number
        ∧ ∃ pre post, pre ++ marker ++ post = d.product.toList := by
  have hmem : PyUSB_init "sn1" ∈ (getAllConnectedInterface [devMatch, devOther]).1 := by
    show PyUSB_init "sn1" ∈ [PyUSB_init "sn1"]
    exact List.mem_singleton.2 rfl
  exact ⟨hmem, (getAllConnectedInterface_spec [devMatch, devOther]).2.2 _ hmem⟩

/-- C8 counterexample: the Enumerator does not capture vendor/product IDs or
name strings at enumeration time — the board returned for a candidate device
records only the serial number, with `vid`, `pid`, `product_name` and
`vendor_name` absent, even though the device's identity fields are available
on the bus (`devMatch.idVendor = 0x0D28`). -/
theorem enum_missing_identity_cex :
    (getAllConnectedInterface [devMatch]).1 = [PyUSB_init "sn1"]
    ∧ (PyUSB_init "sn1").vid = none
    ∧ (PyUSB_init "sn1").pid = none
    ∧ (PyUSB_init "sn1").product_name = none
    ∧ (PyUSB_init "sn1").vendor_name = none
    ∧ devMatch.idVendor = 0x0D28 :=
  ⟨rfl, rfl, rfl, rfl, rfl, rfl⟩

/-- C8 amended: at enumeration time only the serial number is captured into
the returned board (the other identity attributes are absent); the
vendor/product IDs and name strings are recorded only later, by `open`, from
the re-found device. -/
theorem enum_serial_only (bus : List Device) :
    (∀ b ∈ (getAllConnectedInterface bus).1,
        (∃ d ∈ bus, b.serial_number = d.serial_number)
        ∧ b.vid = none ∧ b.pid = none
        ∧ b.product_name = none ∧ b.vendor_name = none)
    ∧ (∀ (st st' : PyUSBSt) (d : Device), open' bus st = Except.ok st' →
        bus.find? (fun d => d.serial_number == st.serial_number) = some d →
        st'.vid = some d.idVendor ∧ st'.pid = some d.idProduct
        ∧ st'.product_name = some d.product
        ∧ st'.vendor_name = some d.manufacturer) := by
  constructor
  · intro b hb
    rw [getAll_fst bus] at hb
    obtain ⟨d, hd, rfl⟩ := List.mem_map.1 hb
    exact ⟨⟨d, (List.mem_filter.1 hd).1, rfl⟩, rfl, rfl, rfl, rfl⟩
  · intro st st' d hok hd
    cases ho : st._open with
    | true => simp [open', ho] at hok
    | false =>
      simp only [open', ho, hd, Bool.false_eq_true, if_false] at hok
      cases hi : d.config.find? (fun i => i.bInterfaceClass == 0x03) with
      | none => simp [hi] at hok
      | some i =>
        simp only [hi] at hok
        cases hin : (scanEndpoints i.endpoints).1 with
        | none => simp [hin] at hok
        | some epi =>
          simp only [hin] at hok
          rw [Except.ok.injEq] at hok
          subst hok
          exact ⟨rfl, rfl, rfl, rfl⟩

theorem enum_serial_only_witness :
    PyUSB_init "sn1" ∈ (getAllConnectedInterface [devMatch]).1
    ∧ (PyUSB_init "sn1").vid = none := by
  have hmem : PyUSB_init "sn1" ∈ (getAllConnectedInterface [devMatch]).1 := by
    show PyUSB_init "sn1" ∈ [PyUSB_init "sn1"]
    exact List.mem_singleton.2 rfl
  exact ⟨hmem, ((enum_serial_only [devMatch]).1 _ hmem).2.1⟩

/-- A freshly opened instance. -/
def stOp : PyUSBSt := { PyUSB_init "S" with _open := true }

/-- C9 counterexample: `close` never clears `_open`, so after a successful
`close` the instance still passes the `assert self._open is True` guard and
a second `close` succeeds instead of failing an assertion. -/
theorem close_twice_cex :
    close' stOp
      = Except.ok ({ stOp with closed := true },
          [Effect.semRelease, Effect.threadJoin, Effect.dispose "S"])
    ∧ ({ stOp with closed := true } : PyUSBSt)._open = true
    ∧ close' { stOp with closed := true }
        = Except.ok ({ stOp with closed := true },
            [Effect.semRelease, Effect.threadJoin, Effect.dispose "S"]) :=
  ⟨rfl, rfl, rfl⟩

/-- C9 amended: `open` on an already-open instance fails the assertion, and
`close` on a never-opened instance fails the assertion; but `close` leaves
the `_open` flag set, so a second `close` passes the guard and runs again
instead of failing. -/
theorem lifecycle_guards (st : PyUSBSt) (bus : List Device) :
    (st._open = true → open' bus st = Except.error PyErr.assertionError)
    ∧ (st._open = false → close' st = Except.error PyErr.assertionError)
    ∧ (st._open = true →
        close' st = Except.ok ({ st with closed := true },
          [Effect.semRelease, Effect.threadJoin, Effect.dispose st.serial_number])
        ∧ ({ st with closed := true } : PyUSBSt)._open = true
        ∧ close' { st with closed := true }
            = Except.ok ({ st with closed := true },
                [Effect.semRelease, Effect.threadJoin,
                 Effect.dispose st.serial_number])) := by
  refine ⟨?_, ?_, ?_⟩
  · intro h
    simp [open', h]
  · intro h
    simp [close', h]
  · intro h
    refine ⟨by simp [close', h], by simpa using h, by simp [close', h]⟩

theorem lifecycle_guards_witness :
    stOp._open = true
    ∧ open' [] stOp = Except.error PyErr.assertionError
    ∧ close' (PyUSB_init "S") = Except.error PyErr.assertionError :=
  ⟨rfl, (lifecycle_guards stOp []).1 rfl,
   (lifecycle_guards (PyUSB_init "S") []).2.1 rfl⟩

end PyUSBModel
